import Mathlib

/-!
Verification of the grading core of the Gradely Lecturer application.

The definitions below are a shallow embedding of the JavaScript/TypeScript
source: `src/src/utils/grading.js`, `src/src/utils/validation.js`,
`src/src/components/lecturer/MarksEntry.tsx` and the mark-store routes of
`src/server.js`.  JavaScript numbers holding marks are embedded as `Int`
(marks and band boundaries are integral in the repository); quantities the
source produces by division and `toFixed(2)` formatting (averages, rates,
percentages) are embedded as `ℚ`, with `toFixed(2)` modelled as
round-half-up to two decimal places.
-/

namespace Gradely

/-- Marks breakdown passed to `calculateTotal` in `grading.js`.  Each field is
optional (`Option Int`): an absent field models a missing JS property, which
`marks.x || 0` treats as 0. -/
structure MarksBreakdown where
  assignment : Option Int
  quiz : Option Int
  project : Option Int
  midsem : Option Int
  finalExam : Option Int
deriving Repr, DecidableEq

/-- The `MAX_MARKS` object of `grading.js` (lines 26-33). -/
structure MaxMarks where
  assignment : Int
  quiz : Int
  project : Int
  midsem : Int
  finalExam : Int
  total : Int
deriving Repr, DecidableEq

/-- `MAX_MARKS` literal of `grading.js`. -/
def MAX_MARKS : MaxMarks :=
  { assignment := 10, quiz := 15, project := 25, midsem := 20
  , finalExam := 30, total := 100 }

/-- One entry of the `GRADE_SCALE` array of `grading.js` (fields `grade`,
`min`, `max`). -/
structure GradeBand where
  grade : String
  min : Int
  max : Int
deriving Repr, DecidableEq

/-- The `GRADE_SCALE` array of `grading.js` (lines 38-51). -/
def GRADE_SCALE : List GradeBand :=
  [ { grade := "A",  min := 90, max := 100 }
  , { grade := "A-", min := 87, max := 89 }
  , { grade := "B+", min := 84, max := 86 }
  , { grade := "B",  min := 80, max := 83 }
  , { grade := "B-", min := 77, max := 79 }
  , { grade := "C+", min := 74, max := 76 }
  , { grade := "C",  min := 70, max := 73 }
  , { grade := "C-", min := 67, max := 69 }
  , { grade := "D+", min := 64, max := 66 }
  , { grade := "D",  min := 62, max := 63 }
  , { grade := "D-", min := 60, max := 61 }
  , { grade := "F",  min := 0,  max := 59 } ]

/-- `PASSING_GRADE` constant of `grading.js` (line 56). -/
def PASSING_GRADE : Int := 60

/-- Raw five-kind sum appearing inside `calculateTotal` before the cap:
`(marks.assignment || 0) + (marks.quiz || 0) + ...`. -/
def breakdownSum (m : MarksBreakdown) : Int :=
  m.assignment.getD 0 + m.quiz.getD 0 + m.project.getD 0 +
    m.midsem.getD 0 + m.finalExam.getD 0

/-- `calculateTotal` of `grading.js` (lines 63-72): the five-kind sum capped
at `MAX_MARKS.total` by `Math.min`. -/
def calculateTotal (m : MarksBreakdown) : Int :=
  min (breakdownSum m) MAX_MARKS.total

/-- The predicate `total >= entry.min && total <= entry.max` used by the
`GRADE_SCALE.find` callback in `calculateGrade`. -/
def bandMatches (total : Int) (entry : GradeBand) : Bool :=
  decide (entry.min ≤ total) && decide (total ≤ entry.max)

/-- `calculateGrade` of `grading.js` (lines 79-84): first matching band of
`GRADE_SCALE`, with the string literal F as the fallback when `find` yields
no entry. -/
def calculateGrade (total : Int) : String :=
  match GRADE_SCALE.find? (bandMatches total) with
  | some entry => entry.grade
  | none => "F"

/-- `hasPassed` of `grading.js` (lines 91-93): `total >= PASSING_GRADE`. -/
def hasPassed (total : Int) : Bool :=
  decide (PASSING_GRADE ≤ total)

/-- Result object of `calculateGradingResult` in `grading.js`. -/
structure GradedResult where
  total : Int
  grade : String
  passed : Bool
deriving Repr, DecidableEq

/-- `calculateGradingResult` of `grading.js` (lines 100-110). -/
def calculateGradingResult (m : MarksBreakdown) : GradedResult :=
  { total := calculateTotal m
  , grade := calculateGrade (calculateTotal m)
  , passed := hasPassed (calculateTotal m) }

/-- Round-half-up to two decimal places: the model of JavaScript
`parseFloat(x.toFixed(2))` used by the statistics functions. -/
def round2 (q : ℚ) : ℚ :=
  (round (q * 100) : ℤ) / 100

/-- `calculateAverage` of `grading.js` (lines 117-124): 0 on an empty list,
otherwise the mean of the per-student totals rounded to two decimals. -/
def calculateAverage (studentsMarks : List MarksBreakdown) : ℚ :=
  if studentsMarks.length = 0 then 0
  else
    round2 ((((studentsMarks.map calculateTotal).sum : Int) : ℚ) /
      (studentsMarks.length : ℚ))

/-- `findHighest` of `grading.js` (lines 131-136): 0 on an empty list,
otherwise `Math.max` over the per-student totals. -/
def findHighest (studentsMarks : List MarksBreakdown) : Int :=
  match studentsMarks.map calculateTotal with
  | [] => 0
  | t :: ts => ts.foldl max t

/-- `findLowest` of `grading.js` (lines 143-148): 0 on an empty list,
otherwise `Math.min` over the per-student totals. -/
def findLowest (studentsMarks : List MarksBreakdown) : Int :=
  match studentsMarks.map calculateTotal with
  | [] => 0
  | t :: ts => ts.foldl min t

/-- `calculatePassRate` of `grading.js` (lines 155-164): 0 on an empty
list, otherwise passed-count over total count times 100, rounded to two
decimals. -/
def calculatePassRate (studentsMarks : List MarksBreakdown) : ℚ :=
  if studentsMarks.length = 0 then 0
  else
    round2 ((((studentsMarks.filter
        (fun s => hasPassed (calculateTotal s))).length : ℚ) /
      (studentsMarks.length : ℚ)) * 100)

/-- Statistics object returned by `calculateClassStatistics`. -/
structure ClassStatistics where
  average : ℚ
  highest : Int
  lowest : Int
  passRate : ℚ
  totalStudents : Nat
  passedStudents : Nat
  failedStudents : Nat
deriving Repr, DecidableEq

/-- `calculateClassStatistics` of `grading.js` (lines 171-181). -/
def calculateClassStatistics (studentsMarks : List MarksBreakdown) :
    ClassStatistics :=
  { average := calculateAverage studentsMarks
  , highest := findHighest studentsMarks
  , lowest := findLowest studentsMarks
  , passRate := calculatePassRate studentsMarks
  , totalStudents := studentsMarks.length
  , passedStudents :=
      (studentsMarks.filter (fun s => hasPassed (calculateTotal s))).length
  , failedStudents :=
      (studentsMarks.filter (fun s => !hasPassed (calculateTotal s))).length }

/-- Initial distribution object built by `getGradeDistribution`: every
`GRADE_SCALE` grade mapped to 0, modelled as an association list in scale
order. -/
def initDistribution : List (String × Nat) :=
  GRADE_SCALE.map (fun entry => (entry.grade, 0))

/-- `distribution[grade]++` on an association list: bump the first pair
whose key is `label`.  In the source the key is always present, because
`calculateGrade` only ever returns a `GRADE_SCALE` grade (proved below), so
the JS behaviour on an undefined key is unreachable. -/
def bumpLabel (label : String) : List (String × Nat) → List (String × Nat)
  | [] => []
  | (k, v) :: rest =>
    if k == label then (k, v + 1) :: rest else (k, v) :: bumpLabel label rest

/-- `getGradeDistribution` of `grading.js` (lines 188-202): start from every
grade at 0 and bump the bucket of the computed grade of each student. -/
def getGradeDistribution (studentsMarks : List MarksBreakdown) :
    List (String × Nat) :=
  studentsMarks.foldl
    (fun dist s => bumpLabel (calculateGrade (calculateTotal s)) dist)
    initDistribution

/-- Lookup modelling the JS member access `MAX_MARKS[assessmentType]` used
by `calculateAssessmentPercentage`; an unknown key is `undefined`
(`none`). -/
def maxMarksLookup : String → Option Int
  | "assignment" => some MAX_MARKS.assignment
  | "quiz" => some MAX_MARKS.quiz
  | "project" => some MAX_MARKS.project
  | "midsem" => some MAX_MARKS.midsem
  | "finalExam" => some MAX_MARKS.finalExam
  | "total" => some MAX_MARKS.total
  | _ => none

/-- `calculateAssessmentPercentage` of `grading.js` (lines 210-215): when
`MAX_MARKS[assessmentType]` is falsy the function returns 0; otherwise
`marks / maxMarks * 100` rounded to two decimals. -/
def calculateAssessmentPercentage (marks : Int) (assessmentType : String) :
    ℚ :=
  match maxMarksLookup assessmentType with
  | none => 0
  | some maxMarks => round2 (((marks : ℚ) / (maxMarks : ℚ)) * 100)

/-- The local `maxMarks` object of `validateAssessmentMarks` in
`validation.js` (lines 93-99): five configured kinds, no `total` key. -/
def validationMaxMarks : String → Option Int
  | "assignment" => some 10
  | "quiz" => some 15
  | "project" => some 25
  | "midsem" => some 20
  | "finalExam" => some 30
  | _ => none

/-- Result object of the validators in `validation.js`. -/
structure ValidationResult where
  isValid : Bool
  errors : List String
deriving Repr, DecidableEq

/-- `validateAssessmentMarks` of `validation.js` (lines 91-121).  The
`typeof marks !== number / isNaN` early return is unreachable in this
embedding because `marks : Int` is always a number; the remaining branches
are translated directly: a negativity error, then either the
invalid-assessment-type error (when the local `maxMarks` lookup is falsy)
or the exceeds-maximum error. -/
def validateAssessmentMarks (assessmentType : String) (marks : Int) :
    ValidationResult :=
  let negErrors : List String :=
    if marks < 0 then ["Marks cannot be negative"] else []
  let errors : List String :=
    match validationMaxMarks assessmentType with
    | none => negErrors ++ ["Invalid assessment type: " ++ assessmentType]
    | some maxAllowed =>
        negErrors ++
          (if maxAllowed < marks then
            ["Marks cannot exceed " ++ toString maxAllowed ++ " for " ++
              assessmentType]
          else [])
  { isValid := errors.isEmpty, errors := errors }

/-- One element of the `assessments` array of an offering
(`src/server.js` `courseOfferingSchema`, consumed by
`MarksEntry.tsx` via `a._id`): only the fields the grading logic reads. -/
structure Assessment where
  id : String
  name : String
  maxScore : Int
deriving Repr, DecidableEq

/-- A course offering as consumed by `MarksEntry.tsx` `calculateTotal`:
its id and its `assessments` array (UI-only fields omitted). -/
structure Offering where
  id : String
  assessments : List Assessment
deriving Repr, DecidableEq

/-- One mark row as returned by `GET /lecturer/offerings/:id/marks` and held
in the `marks` state of `MarksEntry.tsx`. -/
structure ScoreRecord where
  studentId : String
  assessmentId : String
  score : Int
deriving Repr, DecidableEq

/-- `calculateTotal` of `MarksEntry.tsx` (lines 226-238): find the selected
offering, keep the marks of the student whose `assessmentId` is one of the
assessment ids of the offering, and sum their scores with `reduce`.  No
cap at 100.  The `selectedOffering?.assessments` guard returns 0 when the
offering is not found. -/
def offeringStudentTotal (offerings : List Offering)
    (selectedOfferingId : String) (marks : List ScoreRecord)
    (studentId : String) : Int :=
  match offerings.find? (fun o => o.id == selectedOfferingId) with
  | none => 0
  | some selectedOffering =>
    let validAssessmentIds := selectedOffering.assessments.map (·.id)
    let studentMarks := marks.filter (fun m =>
      m.studentId == studentId && validAssessmentIds.contains m.assessmentId)
    studentMarks.foldl (fun sum m => sum + m.score) 0

/-- One band of a grade scale as consumed by `getGrade` in `MarksEntry.tsx`
(fields `grade`, `minScore`, `maxScore`). -/
structure GradeScaleBand where
  grade : String
  minScore : Int
  maxScore : Int
deriving Repr, DecidableEq

/-- `DEFAULT_GRADE_SCALES` literal of `MarksEntry.tsx` (lines 240-253). -/
def DEFAULT_GRADE_SCALES : List GradeScaleBand :=
  [ { grade := "A",  minScore := 90, maxScore := 100 }
  , { grade := "A-", minScore := 87, maxScore := 89 }
  , { grade := "B+", minScore := 84, maxScore := 86 }
  , { grade := "B",  minScore := 80, maxScore := 83 }
  , { grade := "B-", minScore := 77, maxScore := 79 }
  , { grade := "C+", minScore := 74, maxScore := 76 }
  , { grade := "C",  minScore := 70, maxScore := 73 }
  , { grade := "C-", minScore := 67, maxScore := 69 }
  , { grade := "D+", minScore := 64, maxScore := 66 }
  , { grade := "D",  minScore := 62, maxScore := 63 }
  , { grade := "D-", minScore := 60, maxScore := 61 }
  , { grade := "F",  minScore := 0,  maxScore := 59 } ]

/-- `getGrade` of `MarksEntry.tsx` (lines 255-262): totals above 100 are
clamped to the grade A; otherwise the first matching band of the fetched
`gradeScales` (or of `DEFAULT_GRADE_SCALES` when the fetched list is empty)
is used, with the string literal F as the fallback. -/
def getGrade (gradeScales : List GradeScaleBand) (totalScore : Int) :
    String :=
  if 100 < totalScore then "A"
  else
    let scalesToUse :=
      if 0 < gradeScales.length then gradeScales else DEFAULT_GRADE_SCALES
    match scalesToUse.find? (fun s =>
        decide (s.minScore ≤ totalScore) && decide (totalScore ≤ s.maxScore))
      with
    | some s => s.grade
    | none => "F"

/-- A persisted mark document of the `Mark` model in `src/server.js`
(`markSchema`, lines 72-80): `_id` and the mongoose timestamps are embedded
as naturals. -/
structure StoredMark where
  id : Nat
  assessmentId : String
  studentId : String
  offeringId : String
  lecturerId : String
  score : Int
  createdAt : Nat
  updatedAt : Nat
deriving Repr, DecidableEq

/-- One upsert request against the mark store: the fields of a
`POST /lecturer/marks/batch` entry together with the authenticated
id of the grading lecturer, plus the fresh document id and clock value the store would
use if this upsert inserts. -/
structure MarkUpsert where
  assessmentId : String
  studentId : String
  offeringId : String
  lecturerId : String
  score : Int
  freshId : Nat
  now : Nat
deriving Repr, DecidableEq

/-- The filter `{ assessmentId, studentId }` of the `findOneAndUpdate` call
in the batch route, applied to a stored document. -/
def matchesKey (assessmentId studentId : String) (m : StoredMark) : Bool :=
  m.assessmentId == assessmentId && m.studentId == studentId

/-- Effect of the `findOneAndUpdate` update document on an existing match:
`assessmentId` and `studentId` are re-set to their (equal) filter values,
`offeringId`, `lecturerId` and `score` are overwritten, and mongoose
timestamps refresh `updatedAt` while preserving `createdAt` and `_id`. -/
def overwriteMark (m : StoredMark) (u : MarkUpsert) : StoredMark :=
  { m with offeringId := u.offeringId, lecturerId := u.lecturerId
         , score := u.score, updatedAt := u.now }

/-- Document inserted by `findOneAndUpdate` with `upsert: true` when no
document matches the filter: all update fields, a fresh `_id` and fresh
timestamps. -/
def insertMark (u : MarkUpsert) : StoredMark :=
  { id := u.freshId, assessmentId := u.assessmentId
  , studentId := u.studentId, offeringId := u.offeringId
  , lecturerId := u.lecturerId, score := u.score
  , createdAt := u.now, updatedAt := u.now }

/-- `Mark.findOneAndUpdate({assessmentId, studentId}, {...}, {upsert: true})`
of `src/server.js` (lines 277-287) acting on the collection: overwrite the
first document matching the `(assessmentId, studentId)` filter, or append a
new document when none matches.  The compound unique index of `markSchema`
(line 80) guarantees at most one match in any reachable collection. -/
def findOneAndUpdateMark (u : MarkUpsert) :
    List StoredMark → List StoredMark
  | [] => [insertMark u]
  | m :: rest =>
    if matchesKey u.assessmentId u.studentId m then overwriteMark m u :: rest
    else m :: findOneAndUpdateMark u rest

/-- The document returned by `findOneAndUpdate` with `new: true`: the
updated existing document, or the inserted one. -/
def findOneAndUpdateResult (u : MarkUpsert) (store : List StoredMark) :
    StoredMark :=
  match store.find? (matchesKey u.assessmentId u.studentId) with
  | some m => overwriteMark m u
  | none => insertMark u

/-- A sequence of upserts applied in order, as by successive batch
requests. -/
def applyUpserts (us : List MarkUpsert) (store : List StoredMark) :
    List StoredMark :=
  us.foldl (fun s u => findOneAndUpdateMark u s) store

/-- Number of stored documents for one `(assessmentId, studentId)` key. -/
def keyCount (assessmentId studentId : String)
    (store : List StoredMark) : Nat :=
  (store.filter (matchesKey assessmentId studentId)).length

/-- One element of the request body of `POST /lecturer/marks/batch`:
`{ assessmentId, studentId, score, offeringId }`, with ids arriving as raw
strings. -/
structure BatchEntry where
  assessmentId : String
  studentId : String
  offeringId : String
  score : Int
deriving Repr, DecidableEq

/-- Hexadecimal digit test used by the ObjectId cast model. -/
def isHexChar (c : Char) : Bool :=
  c.isDigit || (decide (97 ≤ c.toNat) && decide (c.toNat ≤ 102)) ||
    (decide (65 ≤ c.toNat) && decide (c.toNat ≤ 70))

/-- Modelled from the spec: a mongoose ObjectId cast succeeds exactly on a
24-character hexadecimal string; any other string raises a CastError when
used in the `findOneAndUpdate` filter or update ("a failure on one entry
(e.g., malformed id)"). -/
def isValidObjectId (s : String) : Bool :=
  s.length == 24 && s.toList.all isHexChar

/-- Whether all three ids of a batch entry cast to ObjectIds, i.e. whether
the `findOneAndUpdate` call for this entry succeeds rather than throws. -/
def entryCasts (e : BatchEntry) : Bool :=
  isValidObjectId e.assessmentId && isValidObjectId e.studentId &&
    isValidObjectId e.offeringId

/-- The `MarkUpsert` issued for one batch entry by the route handler:
filter and update fields from the entry, `lecturerId` from the
authenticated user (`req.user._id`), and the fresh store id and clock
both modelled by the running step counter. -/
def entryUpsert (lecturerId : String) (e : BatchEntry) (step : Nat) :
    MarkUpsert :=
  { assessmentId := e.assessmentId, studentId := e.studentId
  , offeringId := e.offeringId, lecturerId := lecturerId
  , score := e.score, freshId := step, now := step }

/-- The `for (const markData of marksData)` loop of
`POST /lecturer/marks/batch` (`src/server.js` lines 269-296): each entry is
upserted in order and its stored document pushed onto `results`; the first
entry whose ids fail to cast throws, and the surrounding `try/catch`
answers with the single generic message Server error, leaving the
documents written so far in place and processing no later entry.  The
value is the final collection together with either the pushed results or
the error response. -/
def marksBatchLoop (lecturerId : String) :
    List BatchEntry → List StoredMark → List StoredMark → Nat →
      List StoredMark × Except String (List StoredMark)
  | [], store, results, _ => (store, Except.ok results.reverse)
  | e :: rest, store, results, step =>
    if entryCasts e then
      let u := entryUpsert lecturerId e step
      marksBatchLoop lecturerId rest (findOneAndUpdateMark u store)
        (findOneAndUpdateResult u store :: results) (step + 1)
    else (store, Except.error "Server error")

/-- Entry point of the batch route: process the request body against the
current collection with an empty `results` array. -/
def marksBatch (lecturerId : String) (entries : List BatchEntry)
    (store : List StoredMark) (step : Nat) :
    List StoredMark × Except String (List StoredMark) :=
  marksBatchLoop lecturerId entries store [] step

/-- Collection state after the route has applied a list of entries (all of
which cast) starting at a given step counter. -/
def applyEntries (lecturerId : String) :
    List BatchEntry → List StoredMark → Nat → List StoredMark
  | [], store, _ => store
  | e :: rest, store, step =>
    applyEntries lecturerId rest
      (findOneAndUpdateMark (entryUpsert lecturerId e step) store) (step + 1)

/-- Modelled from the spec: the default grading-scale table of the external
interfaces section, as `(label, min, max)` triples, used as the refinement
reference that `DEFAULT_GRADE_SCALES` is compared against. -/
def specDefaultScaleTable : List (String × Int × Int) :=
  [ ("A", 90, 100), ("A-", 87, 89), ("B+", 84, 86), ("B", 80, 83)
  , ("B-", 77, 79), ("C+", 74, 76), ("C", 70, 73), ("C-", 67, 69)
  , ("D+", 64, 66), ("D", 62, 63), ("D-", 60, 61), ("F", 0, 59) ]

/- Helper lemmas. -/

/-- Every integer total between 0 and 100 matches exactly one band of
`GRADE_SCALE`. -/
lemma gradeScale_partition_icc :
    ∀ t ∈ Finset.Icc (0 : ℤ) 100,
      (GRADE_SCALE.filter (bandMatches t)).length = 1 := by decide

/-- A total below every band minimum yields the fallback grade F. -/
lemma calculateGrade_of_neg {t : ℤ} (h : t < 0) : calculateGrade t = "F" := by
  have hnone : GRADE_SCALE.find? (bandMatches t) = none := by
    rw [List.find?_eq_none]
    intro e he
    fin_cases he <;> simp [bandMatches] <;> omega
  simp [calculateGrade, hnone]

/-- A total above every band maximum yields the fallback grade F in
`calculateGrade` (no clamping in `grading.js`). -/
lemma calculateGrade_of_gt_100 {t : ℤ} (h : 100 < t) :
    calculateGrade t = "F" := by
  have hnone : GRADE_SCALE.find? (bandMatches t) = none := by
    rw [List.find?_eq_none]
    intro e he
    fin_cases he <;> simp [bandMatches] <;> omega
  simp [calculateGrade, hnone]

/-- `calculateGrade` always returns one of the twelve scale labels. -/
lemma calculateGrade_mem_labels (t : ℤ) :
    calculateGrade t ∈ GRADE_SCALE.map GradeBand.grade := by
  unfold calculateGrade
  cases hfind : GRADE_SCALE.find? (bandMatches t) with
  | none => decide
  | some e => exact List.mem_map_of_mem _ (List.mem_of_find?_eq_some hfind)

/-- `getGrade` with an empty fetched scale list and a negative total falls
through to the fallback F. -/
lemma getGrade_empty_of_neg {t : ℤ} (h : t < 0) : getGrade [] t = "F" := by
  have hnone : DEFAULT_GRADE_SCALES.find? (fun s =>
      decide (s.minScore ≤ t) && decide (t ≤ s.maxScore)) = none := by
    rw [List.find?_eq_none]
    intro s hs
    fin_cases hs <;> simp <;> omega
  have hlt : ¬ (100 : ℤ) < t := by omega
  simp [getGrade, hlt, hnone]

/-- The five-kind sum, written out. -/
lemma calculateTotal_eq (m : MarksBreakdown) :
    calculateTotal m = min (breakdownSum m) 100 := rfl

/-- The `reduce((sum, m) => sum + m.score, 0)` idiom is summation of the
mapped scores. -/
lemma foldl_add_score (l : List ScoreRecord) (a : Int) :
    l.foldl (fun sum m => sum + m.score) a = a + (l.map (·.score)).sum := by
  induction l generalizing a with
  | nil => simp
  | cons x xs ih =>
    simp only [List.foldl_cons, List.map_cons, List.sum_cons, ih]
    ring

/-- Claim C4: for every total, `hasPassed` returns true exactly when the
total is at least the fixed threshold 60; the `passed` flag of a grading
result comes from the numeric total alone, and pass/fail is not a function
of the grade label (two totals with the same label can differ in
pass/fail), as the 59/60 and F/D- boundary values illustrate. -/
theorem hasPassed_is_threshold_60 :
    (∀ t : ℤ, hasPassed t = true ↔ 60 ≤ t) ∧
    PASSING_GRADE = 60 ∧
    (∀ m : MarksBreakdown,
      (calculateGradingResult m).passed = hasPassed (calculateTotal m)) ∧
    (∃ t u : ℤ, calculateGrade t = calculateGrade u ∧
      hasPassed t ≠ hasPassed u) ∧
    hasPassed 60 = true ∧ calculateGrade 60 = "D-" ∧
    hasPassed 59 = false ∧ calculateGrade 59 = "F" := by
  refine ⟨?_, rfl, fun m => rfl, ⟨150, 0, ?_, by decide⟩, by decide,
    by decide, by decide, by decide⟩
  · intro t
    simp [hasPassed, PASSING_GRADE]
  · rw [calculateGrade_of_gt_100 (by omega)]
    decide

/-- Witness for C4: the threshold equivalence evaluated at total 61. -/
theorem hasPassed_is_threshold_60_witness :
    hasPassed 61 = true :=
  (hasPassed_is_threshold_60.1 61).mpr (by decide)

/-- Claim C6: aggregating an empty collection is not an error — the class
statistics on `[]` are all zero, and the grade distribution on `[]` maps
every one of the twelve known band labels to 0 rather than being empty. -/
theorem empty_aggregation_returns_zeros :
    calculateClassStatistics [] =
      { average := 0, highest := 0, lowest := 0, passRate := 0
      , totalStudents := 0, passedStudents := 0, failedStudents := 0 } ∧
    getGradeDistribution [] =
      [ ("A", 0), ("A-", 0), ("B+", 0), ("B", 0), ("B-", 0), ("C+", 0)
      , ("C", 0), ("C-", 0), ("D+", 0), ("D", 0), ("D-", 0), ("F", 0) ] := by
  constructor
  · decide
  · decide

/-- Claim C7: `calculateTotal` returns 0 on all-absent and on all-zero
input, and is monotonic — raising any of the five input scores (the others
held fixed, here stated for all five simultaneously) cannot decrease the
capped total. -/
theorem calculateTotal_zero_and_monotonic :
    calculateTotal ⟨none, none, none, none, none⟩ = 0 ∧
    calculateTotal ⟨some 0, some 0, some 0, some 0, some 0⟩ = 0 ∧
    ∀ m m' : MarksBreakdown,
      m.assignment.getD 0 ≤ m'.assignment.getD 0 →
      m.quiz.getD 0 ≤ m'.quiz.getD 0 →
      m.project.getD 0 ≤ m'.project.getD 0 →
      m.midsem.getD 0 ≤ m'.midsem.getD 0 →
      m.finalExam.getD 0 ≤ m'.finalExam.getD 0 →
      calculateTotal m ≤ calculateTotal m' := by
  refine ⟨by decide, by decide, fun m m' h1 h2 h3 h4 h5 => ?_⟩
  simp only [calculateTotal, breakdownSum, MAX_MARKS]
  omega

/-- Witness for C7: monotonicity applied to a concrete pair of breakdowns
where only the quiz score increases. -/
theorem calculateTotal_zero_and_monotonic_witness :
    calculateTotal ⟨some 8, some 10, some 20, some 17, some 25⟩ ≤
      calculateTotal ⟨some 8, some 13, some 20, some 17, some 25⟩ :=
  calculateTotal_zero_and_monotonic.2.2
    ⟨some 8, some 10, some 20, some 17, some 25⟩
    ⟨some 8, some 13, some 20, some 17, some 25⟩
    (by decide) (by decide) (by decide) (by decide) (by decide)

/-- Counterexample for C1: `calculateGrade` in `grading.js` does not clamp
totals above 100 — at total 101 it returns the fallback F, not the label A
it returns at total 100, so "for every total > 100 it returns the same
label as for total = 100" is false for this classification operation. -/
theorem calculateGrade_no_clamp_counterexample :
    calculateGrade 101 ≠ calculateGrade 100 ∧
    calculateGrade 101 = "F" ∧ calculateGrade 100 = "A" := by decide

/-- Claim C1 (amended): classification is total — on every integer total in
[0, 100] exactly one band of the scale matches; both classifiers return the
lowest-band fallback label F for negative totals (the same label as at
total 0); for totals above 100 the `MarksEntry.tsx` classifier `getGrade`
clamps to the top label A (the label at total 100) but the `grading.js`
classifier `calculateGrade` instead returns the fallback F; and
`calculateGrade` always returns one of the twelve scale labels, never
failing. -/
theorem grade_classification_amended :
    (∀ t : ℤ, 0 ≤ t → t ≤ 100 →
      (GRADE_SCALE.filter (bandMatches t)).length = 1) ∧
    (∀ (gradeScales : List GradeScaleBand) (t : ℤ), 100 < t →
      getGrade gradeScales t = "A") ∧
    getGrade [] 100 = "A" ∧
    (∀ t : ℤ, 100 < t → calculateGrade t = "F") ∧
    (∀ t : ℤ, t < 0 → calculateGrade t = "F" ∧ getGrade [] t = "F") ∧
    calculateGrade 0 = "F" ∧ getGrade [] 0 = "F" ∧
    (∀ t : ℤ, calculateGrade t ∈ GRADE_SCALE.map GradeBand.grade) := by
  refine ⟨fun t h1 h2 =>
      gradeScale_partition_icc t (Finset.mem_Icc.mpr ⟨h1, h2⟩),
    fun gradeScales t h => by simp [getGrade, h],
    by decide,
    fun t h => calculateGrade_of_gt_100 h,
    fun t h => ⟨calculateGrade_of_neg h, getGrade_empty_of_neg h⟩,
    by decide, by decide, calculateGrade_mem_labels⟩

/-- Witness for C1 (amended): the conjuncts evaluated at the concrete
totals 95, 104 and -3. -/
theorem grade_classification_amended_witness :
    (GRADE_SCALE.filter (bandMatches 95)).length = 1 ∧
    getGrade [] 104 = "A" ∧ calculateGrade 104 = "F" ∧
    calculateGrade (-3) = "F" ∧ getGrade [] (-3) = "F" :=
  ⟨grade_classification_amended.1 95 (by decide) (by decide),
   grade_classification_amended.2.1 [] 104 (by decide),
   grade_classification_amended.2.2.2.1 104 (by decide),
   (grade_classification_amended.2.2.2.2.1 (-3) (by decide)).1,
   (grade_classification_amended.2.2.2.2.1 (-3) (by decide)).2⟩

/-- Claim C5: when the fetched scale list is empty, `getGrade` classifies
against the built-in `DEFAULT_GRADE_SCALES`, whose bands reproduce the
default table of the spec verbatim, and classification always returns one of the
twelve labels for every total — it never fails for lack of
configuration. -/
theorem default_scale_fallback :
    DEFAULT_GRADE_SCALES.map (fun s => (s.grade, s.minScore, s.maxScore)) =
      specDefaultScaleTable ∧
    (∀ t : ℤ, getGrade [] t = getGrade DEFAULT_GRADE_SCALES t) ∧
    (∀ t : ℤ, getGrade [] t ∈ DEFAULT_GRADE_SCALES.map
      GradeScaleBand.grade) := by
  refine ⟨by decide, fun t => rfl, fun t => ?_⟩
  by_cases h : (100 : ℤ) < t
  · simp only [getGrade, if_pos h]
    decide
  · have hform : getGrade [] t =
        match DEFAULT_GRADE_SCALES.find? (fun s =>
            decide (s.minScore ≤ t) && decide (t ≤ s.maxScore)) with
        | some s => s.grade
        | none => "F" := by
      simp [getGrade, h]
    rw [hform]
    cases hfind : DEFAULT_GRADE_SCALES.find? (fun s =>
        decide (s.minScore ≤ t) && decide (t ≤ s.maxScore)) with
    | none => decide
    | some s => exact List.mem_map_of_mem _ (List.mem_of_find?_eq_some hfind)

/-- Counterexample for C2: the per-offering total of `MarksEntry.tsx` is
not capped at 100 — a single score record of 150 against an assessment
whose configured maximum is 200 (so the score is within [0, max]) yields a
student total of 150. -/
theorem offering_total_uncapped_counterexample :
    offeringStudentTotal [⟨"off1", [⟨"a1", "Final", 200⟩]⟩] "off1"
      [⟨"s1", "a1", 150⟩] "s1" = 150 ∧
    ((0 : ℤ) ≤ 150 ∧ (150 : ℤ) ≤ 200) ∧ ¬ ((150 : ℤ) ≤ 100) := by decide

/-- Claim C2 (amended): the five-kind breakdown total of `grading.js` never
exceeds 100 and equals the exact sum of the scores whenever that sum is at
most 100; the per-offering student total of `MarksEntry.tsx`, by contrast,
is the uncapped sum of the score records of the student over the
assessments of the offering and can exceed 100. -/
theorem computeTotal_cap_amended :
    (∀ m : MarksBreakdown, calculateTotal m ≤ 100) ∧
    (∀ m : MarksBreakdown, breakdownSum m ≤ 100 →
      calculateTotal m = breakdownSum m) ∧
    (∀ (offerings : List Offering) (oid sid : String)
      (marks : List ScoreRecord) (off : Offering),
      offerings.find? (fun o => o.id == oid) = some off →
      offeringStudentTotal offerings oid marks sid =
        ((marks.filter (fun m => m.studentId == sid &&
          (off.assessments.map (·.id)).contains m.assessmentId)).map
            (·.score)).sum) := by
  refine ⟨fun m => min_le_right _ _, fun m h => ?_, ?_⟩
  · simp only [calculateTotal, MAX_MARKS]
    omega
  · intro offerings oid sid marks off hfind
    simp only [offeringStudentTotal, hfind]
    rw [foldl_add_score]
    simp

/-- Witness for C2 (amended): the exact-sum case on the concrete scenario
breakdown of the spec (total 83), and the filtered-sum characterization on a
one-assessment offering. -/
theorem computeTotal_cap_amended_witness :
    calculateTotal ⟨some 8, some 13, some 20, some 17, some 25⟩ =
      breakdownSum ⟨some 8, some 13, some 20, some 17, some 25⟩ ∧
    offeringStudentTotal [⟨"off1", [⟨"a1", "Final", 200⟩]⟩] "off1"
      [⟨"s1", "a1", 150⟩] "s1" =
      ((([⟨"s1", "a1", 150⟩] : List ScoreRecord).filter (fun m =>
        m.studentId == "s1" &&
          ((([⟨"a1", "Final", 200⟩] : List Assessment)).map
            (·.id)).contains m.assessmentId)).map (·.score)).sum :=
  ⟨computeTotal_cap_amended.2.1 ⟨some 8, some 13, some 20, some 17, some 25⟩
      (by decide),
   computeTotal_cap_amended.2.2 [⟨"off1", [⟨"a1", "Final", 200⟩]⟩] "off1"
      "s1" [⟨"s1", "a1", 150⟩] ⟨"off1", [⟨"a1", "Final", 200⟩]⟩ (by decide)⟩

/-- Counterexample for C8: `calculateAssessmentPercentage` does not surface
an unknown assessment kind — for the unconfigured kind homework it silently
returns 0, the same value as a legitimate zero-score percentage, reporting
nothing. -/
theorem percentage_silently_zeroes_counterexample :
    calculateAssessmentPercentage 50 "homework" = 0 ∧
    maxMarksLookup "homework" = none ∧
    calculateAssessmentPercentage 50 "homework" =
      calculateAssessmentPercentage 0 "quiz" := by
  refine ⟨rfl, rfl, ?_⟩
  simp [calculateAssessmentPercentage, maxMarksLookup, round2]

/-- Claim C8 (amended): the validation layer surfaces an unknown assessment
kind immediately — for every kind with no configured maximum,
`validateAssessmentMarks` is invalid and its errors name the invalid kind —
while `calculateAssessmentPercentage` instead silently returns 0 for every
kind absent from `MAX_MARKS`. -/
theorem unknown_assessment_kind_amended :
    (∀ (kind : String) (marks : Int), validationMaxMarks kind = none →
      (validateAssessmentMarks kind marks).isValid = false ∧
      ("Invalid assessment type: " ++ kind) ∈
        (validateAssessmentMarks kind marks).errors) ∧
    (∀ (kind : String) (marks : Int), maxMarksLookup kind = none →
      calculateAssessmentPercentage marks kind = 0) := by
  constructor
  · intro kind marks hk
    by_cases hm : marks < 0 <;>
      simp [validateAssessmentMarks, hk, hm]
  · intro kind marks hk
    simp [calculateAssessmentPercentage, hk]

/-- Witness for C8 (amended): both conjuncts at the concrete unknown kind
homework with 50 marks. -/
theorem unknown_assessment_kind_amended_witness :
    ((validateAssessmentMarks "homework" 50).isValid = false ∧
      ("Invalid assessment type: " ++ "homework") ∈
        (validateAssessmentMarks "homework" 50).errors) ∧
    calculateAssessmentPercentage 50 "homework" = 0 :=
  ⟨unknown_assessment_kind_amended.1 "homework" 50 (by decide),
   unknown_assessment_kind_amended.2 "homework" 50 (by decide)⟩

/-- Bumping a bucket never changes the key list of the distribution. -/
lemma bumpLabel_keys (label : String) (d : List (String × Nat)) :
    (bumpLabel label d).map Prod.fst = d.map Prod.fst := by
  induction d with
  | nil => rfl
  | cons p rest ih =>
    obtain ⟨k, v⟩ := p
    by_cases h : k = label
    · simp [bumpLabel, h]
    · simp [bumpLabel, h, ih]

/-- Bumping a bucket whose label is present raises the count sum by one. -/
lemma bumpLabel_sum (label : String) (d : List (String × Nat))
    (h : label ∈ d.map Prod.fst) :
    ((bumpLabel label d).map Prod.snd).sum = (d.map Prod.snd).sum + 1 := by
  induction d with
  | nil => simp at h
  | cons p rest ih =>
    obtain ⟨k, v⟩ := p
    by_cases hk : k = label
    · simp only [bumpLabel, hk, beq_self_eq_true, if_true, List.map_cons,
        List.sum_cons]
      omega
    · have h' : label ∈ rest.map Prod.fst := by
        rcases List.mem_cons.mp h with heq | hmem
        · exact absurd heq.symm hk
        · exact hmem
      simp only [bumpLabel, List.map_cons, List.sum_cons]
      rw [if_neg (by simpa using hk)]
      simp only [List.map_cons, List.sum_cons, ih h']
      omega

/-- Folding the per-student bump over any distribution carrying the key
list of the scale preserves that key list and adds the student count to the
count sum. -/
lemma distribution_fold_invariant (studentsMarks : List MarksBreakdown) :
    ∀ d : List (String × Nat),
      d.map Prod.fst = GRADE_SCALE.map GradeBand.grade →
      ((studentsMarks.foldl
          (fun dist s => bumpLabel (calculateGrade (calculateTotal s)) dist)
          d).map Prod.fst = GRADE_SCALE.map GradeBand.grade ∧
        ((studentsMarks.foldl
          (fun dist s => bumpLabel (calculateGrade (calculateTotal s)) dist)
          d).map Prod.snd).sum =
          (d.map Prod.snd).sum + studentsMarks.length) := by
  induction studentsMarks with
  | nil => intro d hd; simpa using hd
  | cons x xs ih =>
    intro d hd
    simp only [List.foldl_cons, List.length_cons]
    have hkeys := bumpLabel_keys (calculateGrade (calculateTotal x)) d
    have hmem : calculateGrade (calculateTotal x) ∈ d.map Prod.fst := by
      rw [hd]; exact calculateGrade_mem_labels _
    obtain ⟨ha, hb⟩ :=
      ih (bumpLabel (calculateGrade (calculateTotal x)) d) (hkeys.trans hd)
    refine ⟨ha, ?_⟩
    rw [hb, bumpLabel_sum _ _ hmem]
    omega

/-- Claim C10: for every list of student marks, the key list of the grade
distribution is exactly the twelve labels of the built-in scale, in scale
order, and its counts sum to the number of students — every student lands
in exactly one initialized bucket and no count is lost. -/
theorem gradeDistribution_keys_and_sum :
    ∀ studentsMarks : List MarksBreakdown,
      (getGradeDistribution studentsMarks).map Prod.fst =
        ["A", "A-", "B+", "B", "B-", "C+", "C", "C-", "D+", "D", "D-", "F"] ∧
      ((getGradeDistribution studentsMarks).map Prod.snd).sum =
        studentsMarks.length := by
  intro studentsMarks
  obtain ⟨ha, hb⟩ :=
    distribution_fold_invariant studentsMarks initDistribution (by decide)
  constructor
  · rw [getGradeDistribution, ha]; decide
  · have h0 : (initDistribution.map Prod.snd).sum = 0 := by decide
    rw [getGradeDistribution, hb, h0]
    omega

/-- Overwriting a stored document changes neither its key fields nor its
identity fields. -/
lemma matchesKey_overwriteMark (a s : String) (m : StoredMark)
    (u : MarkUpsert) :
    matchesKey a s (overwriteMark m u) = matchesKey a s m := rfl

/-- A freshly inserted document matches the key of its upsert. -/
lemma matchesKey_insertMark (u : MarkUpsert) :
    matchesKey u.assessmentId u.studentId (insertMark u) = true := by
  simp [matchesKey, insertMark]

/-- Effect of one upsert on the documents at its own key: the first match
is overwritten in place, or a fresh document is appended when there is no
match. -/
lemma filter_findOneAndUpdate_self (u : MarkUpsert)
    (store : List StoredMark) :
    (findOneAndUpdateMark u store).filter
        (matchesKey u.assessmentId u.studentId) =
      match store.filter (matchesKey u.assessmentId u.studentId) with
      | [] => [insertMark u]
      | m :: rest => overwriteMark m u :: rest := by
  induction store with
  | nil => simp [findOneAndUpdateMark, matchesKey_insertMark]
  | cons m rest ih =>
    by_cases h : matchesKey u.assessmentId u.studentId m
    · simp [findOneAndUpdateMark, h, List.filter_cons,
        matchesKey_overwriteMark]
    · simp [findOneAndUpdateMark, h, List.filter_cons, ih]

/-- One upsert leaves the documents at every other key unchanged. -/
lemma filter_findOneAndUpdate_other (u : MarkUpsert) (a s : String)
    (h : ¬ (u.assessmentId = a ∧ u.studentId = s))
    (store : List StoredMark) :
    (findOneAndUpdateMark u store).filter (matchesKey a s) =
      store.filter (matchesKey a s) := by
  induction store with
  | nil =>
    have hins : matchesKey a s (insertMark u) = false := by
      simp only [matchesKey, insertMark, Bool.and_eq_false_iff,
        beq_eq_false_iff_ne, ne_eq]
      by_cases ha : u.assessmentId = a
      · exact Or.inr (fun hs => h ⟨ha, hs⟩)
      · exact Or.inl ha
    simp [findOneAndUpdateMark, hins]
  | cons m rest ih =>
    by_cases hm : matchesKey u.assessmentId u.studentId m
    · have hfalse : matchesKey a s m = false := by
        by_contra hc
        rw [Bool.not_eq_false] at hc
        simp only [matchesKey, Bool.and_eq_true, beq_iff_eq] at hm hc
        exact h ⟨by rw [← hm.1, hc.1], by rw [← hm.2, hc.2]⟩
      simp [findOneAndUpdateMark, hm, List.filter_cons,
        matchesKey_overwriteMark, hfalse]
    · simp [findOneAndUpdateMark, hm, List.filter_cons, ih]

/-- Applying a sequence of same-key upserts to a store holding exactly one
document at that key folds the overwrites over that document. -/
lemma applyUpserts_filter_single (aid sid : String) :
    ∀ us : List MarkUpsert,
      (∀ u ∈ us, u.assessmentId = aid ∧ u.studentId = sid) →
      ∀ (store : List StoredMark) (r : StoredMark),
        store.filter (matchesKey aid sid) = [r] →
        (applyUpserts us store).filter (matchesKey aid sid) =
          [us.foldl overwriteMark r] := by
  intro us
  induction us with
  | nil => intro _ store r hr; simpa [applyUpserts] using hr
  | cons u us ih =>
    intro hkeys store r hr
    obtain ⟨hu1, hu2⟩ := hkeys u (List.mem_cons_self u us)
    have hstep : (findOneAndUpdateMark u store).filter (matchesKey aid sid) =
        [overwriteMark r u] := by
      have hself := filter_findOneAndUpdate_self u store
      rw [hu1, hu2] at hself
      rw [hself, hr]
    have happ : applyUpserts (u :: us) store =
        applyUpserts us (findOneAndUpdateMark u store) := rfl
    rw [happ, List.foldl_cons]
    exact ih (fun v hv => hkeys v (List.mem_cons_of_mem u hv)) _ _ hstep

/-- Folding overwrites preserves identity, creation timestamp and the key
fields of the base document. -/
lemma foldl_overwriteMark_preserves (us : List MarkUpsert) :
    ∀ r : StoredMark,
      (us.foldl overwriteMark r).id = r.id ∧
      (us.foldl overwriteMark r).createdAt = r.createdAt ∧
      (us.foldl overwriteMark r).assessmentId = r.assessmentId ∧
      (us.foldl overwriteMark r).studentId = r.studentId := by
  induction us with
  | nil => intro r; exact ⟨rfl, rfl, rfl, rfl⟩
  | cons u us ih =>
    intro r
    simp only [List.foldl_cons]
    exact ih (overwriteMark r u)

/-- Folding overwrites of a nonempty upsert sequence yields the score and
grader of its last element. -/
lemma foldl_overwriteMark_last (us : List MarkUpsert) :
    ∀ (r : StoredMark) (ulast : MarkUpsert), us.getLast? = some ulast →
      (us.foldl overwriteMark r).score = ulast.score ∧
      (us.foldl overwriteMark r).lecturerId = ulast.lecturerId := by
  induction us with
  | nil => intro r ulast h; simp at h
  | cons u us ih =>
    intro r ulast h
    cases us with
    | nil =>
      simp only [List.getLast?_singleton, Option.some.injEq] at h
      subst h
      exact ⟨rfl, rfl⟩
    | cons v vs =>
      have h' : (v :: vs).getLast? = some ulast := by
        simpa [List.getLast?_cons_cons] using h
      simp only [List.foldl_cons]
      exact ih (overwriteMark r u) ulast h'

/-- Claim C3: the mark upsert is idempotent with last-write-wins semantics.
The at-most-one-document-per-`(assessmentId, studentId)`-key invariant is
preserved by every upsert, and after any nonempty sequence of upserts for
one key against a store with no document at that key, the store holds
exactly one document for the key, carrying the score and grader of the
last upsert and the identity and creation timestamp of the first. -/
theorem mark_upsert_idempotent_lww
    (aid sid : String) (u0 : MarkUpsert) (rest : List MarkUpsert)
    (ulast : MarkUpsert) (store : List StoredMark)
    (hkeys : ∀ u ∈ u0 :: rest, u.assessmentId = aid ∧ u.studentId = sid)
    (hlast : (u0 :: rest).getLast? = some ulast)
    (h0 : keyCount aid sid store = 0) :
    (∀ (u : MarkUpsert) (st : List StoredMark),
      keyCount aid sid st ≤ 1 →
      keyCount aid sid (findOneAndUpdateMark u st) ≤ 1) ∧
    ∃ r : StoredMark,
      (applyUpserts (u0 :: rest) store).filter (matchesKey aid sid) = [r] ∧
      r.score = ulast.score ∧ r.lecturerId = ulast.lecturerId ∧
      r.id = u0.freshId ∧ r.createdAt = u0.now ∧
      r.assessmentId = aid ∧ r.studentId = sid := by
  constructor
  · intro u st hst
    by_cases hu : u.assessmentId = aid ∧ u.studentId = sid
    · have hself := filter_findOneAndUpdate_self u st
      rw [hu.1, hu.2] at hself
      unfold keyCount at hst ⊢
      rw [hself]
      cases hfe : st.filter (matchesKey aid sid) with
      | nil => simp
      | cons m ms =>
        rw [hfe] at hst
        simp only [List.length_cons] at hst ⊢
        omega
    · unfold keyCount
      rw [filter_findOneAndUpdate_other u aid sid hu st]
      exact hst
  · obtain ⟨h1, h2⟩ := hkeys u0 (List.mem_cons_self u0 rest)
    have hempty : store.filter (matchesKey aid sid) = [] := by
      unfold keyCount at h0
      exact List.length_eq_zero.mp h0
    have hins : (findOneAndUpdateMark u0 store).filter
        (matchesKey aid sid) = [insertMark u0] := by
      have hself := filter_findOneAndUpdate_self u0 store
      rw [h1, h2] at hself
      rw [hself, hempty]
    have happ : applyUpserts (u0 :: rest) store =
        applyUpserts rest (findOneAndUpdateMark u0 store) := rfl
    have hfilter := applyUpserts_filter_single aid sid rest
      (fun v hv => hkeys v (List.mem_cons_of_mem u0 hv)) _ _ hins
    have hsl : (rest.foldl overwriteMark (insertMark u0)).score =
        ulast.score ∧
        (rest.foldl overwriteMark (insertMark u0)).lecturerId =
          ulast.lecturerId := by
      cases rest with
      | nil =>
        simp only [List.getLast?_singleton, Option.some.injEq] at hlast
        subst hlast
        exact ⟨rfl, rfl⟩
      | cons v vs =>
        have h' : (v :: vs).getLast? = some ulast := by
          simpa [List.getLast?_cons_cons] using hlast
        exact foldl_overwriteMark_last (v :: vs) (insertMark u0) ulast h'
    obtain ⟨hid, hcr, hka, hks⟩ :=
      foldl_overwriteMark_preserves rest (insertMark u0)
    refine ⟨rest.foldl overwriteMark (insertMark u0),
      by rw [happ]; exact hfilter, hsl.1, hsl.2, hid, hcr, ?_, ?_⟩
    · rw [hka]; exact h1
    · rw [hks]; exact h2

/-- Witness for C3: two successive upserts for one key with scores 70 then
85 (the concrete scenario of the spec) against an empty store leave exactly one
document, scored 85, with the identity and timestamp of the first
write. -/
theorem mark_upsert_idempotent_lww_witness :
    (∀ (u : MarkUpsert) (st : List StoredMark),
      keyCount "a" "s" st ≤ 1 →
      keyCount "a" "s" (findOneAndUpdateMark u st) ≤ 1) ∧
    ∃ r : StoredMark,
      (applyUpserts
        [ ⟨"a", "s", "o", "lect", 70, 1, 10⟩
        , ⟨"a", "s", "o", "lect", 85, 2, 11⟩ ] []).filter
          (matchesKey "a" "s") = [r] ∧
      r.score = (85 : ℤ) ∧ r.lecturerId = "lect" ∧
      r.id = 1 ∧ r.createdAt = 10 ∧
      r.assessmentId = "a" ∧ r.studentId = "s" :=
  mark_upsert_idempotent_lww "a" "s"
    ⟨"a", "s", "o", "lect", 70, 1, 10⟩
    [⟨"a", "s", "o", "lect", 85, 2, 11⟩]
    ⟨"a", "s", "o", "lect", 85, 2, 11⟩ []
    (by decide) (by decide) (by decide)

/-- On a batch whose first non-casting entry sits after a block of valid
entries, the route loop applies exactly the valid prefix and answers with
the generic error, for any accumulated results. -/
lemma marksBatchLoop_stops (lect : String) (bad : BatchEntry)
    (rest : List BatchEntry) (hbad : entryCasts bad = false) :
    ∀ pre : List BatchEntry, (∀ e ∈ pre, entryCasts e = true) →
    ∀ (store results : List StoredMark) (step : Nat),
      marksBatchLoop lect (pre ++ bad :: rest) store results step =
        (applyEntries lect pre store step, Except.error "Server error") := by
  intro pre
  induction pre with
  | nil =>
    intro _ store results step
    simp [marksBatchLoop, hbad, applyEntries]
  | cons e pre ih =>
    intro hpre store results step
    have he : entryCasts e = true := hpre e (List.mem_cons_self e pre)
    simp only [List.cons_append, marksBatchLoop, he, if_true, applyEntries]
    exact ih (fun v hv => hpre v (List.mem_cons_of_mem e hv)) _ _ _

/-- On a batch all of whose entries cast, the route loop applies every
entry and answers with a success payload. -/
lemma marksBatchLoop_all_valid (lect : String) :
    ∀ entries : List BatchEntry, (∀ e ∈ entries, entryCasts e = true) →
    ∀ (store results : List StoredMark) (step : Nat),
      (marksBatchLoop lect entries store results step).1 =
        applyEntries lect entries store step ∧
      ∃ rs, (marksBatchLoop lect entries store results step).2 =
        Except.ok rs := by
  intro entries
  induction entries with
  | nil =>
    intro _ store results step
    exact ⟨rfl, results.reverse, rfl⟩
  | cons e l ih =>
    intro h store results step
    have he : entryCasts e = true := h e (List.mem_cons_self e l)
    simp only [marksBatchLoop, he, if_true, applyEntries]
    exact ih (fun v hv => h v (List.mem_cons_of_mem e hv)) _ _ _

/-- Counterexample for C9: in a three-entry batch whose middle entry has a
malformed assessment id, the valid third entry is neither applied nor
reported — the response is the single generic Server error and the final
collection holds only the document of the first entry. -/
theorem batch_failure_skips_later_counterexample :
    (marksBatch "lect"
      [ ⟨"aaaaaaaaaaaaaaaaaaaaaaaa", "bbbbbbbbbbbbbbbbbbbbbbbb",
          "cccccccccccccccccccccccc", 40⟩
      , ⟨"oops", "bbbbbbbbbbbbbbbbbbbbbbbb",
          "cccccccccccccccccccccccc", 55⟩
      , ⟨"dddddddddddddddddddddddd", "eeeeeeeeeeeeeeeeeeeeeeee",
          "cccccccccccccccccccccccc", 70⟩ ] [] 0).2 =
      Except.error "Server error" ∧
    entryCasts ⟨"dddddddddddddddddddddddd", "eeeeeeeeeeeeeeeeeeeeeeee",
      "cccccccccccccccccccccccc", 70⟩ = true ∧
    keyCount "dddddddddddddddddddddddd" "eeeeeeeeeeeeeeeeeeeeeeee"
      (marksBatch "lect"
        [ ⟨"aaaaaaaaaaaaaaaaaaaaaaaa", "bbbbbbbbbbbbbbbbbbbbbbbb",
            "cccccccccccccccccccccccc", 40⟩
        , ⟨"oops", "bbbbbbbbbbbbbbbbbbbbbbbb",
            "cccccccccccccccccccccccc", 55⟩
        , ⟨"dddddddddddddddddddddddd", "eeeeeeeeeeeeeeeeeeeeeeee",
            "cccccccccccccccccccccccc", 70⟩ ] [] 0).1 = 0 ∧
    keyCount "aaaaaaaaaaaaaaaaaaaaaaaa" "bbbbbbbbbbbbbbbbbbbbbbbb"
      (marksBatch "lect"
        [ ⟨"aaaaaaaaaaaaaaaaaaaaaaaa", "bbbbbbbbbbbbbbbbbbbbbbbb",
            "cccccccccccccccccccccccc", 40⟩
        , ⟨"oops", "bbbbbbbbbbbbbbbbbbbbbbbb",
            "cccccccccccccccccccccccc", 55⟩
        , ⟨"dddddddddddddddddddddddd", "eeeeeeeeeeeeeeeeeeeeeeee",
            "cccccccccccccccccccccccc", 70⟩ ] [] 0).1 = 1 := by
  refine ⟨rfl, by decide, by decide, by decide⟩

/-- Claim C9 (amended): batch entries are applied strictly in order up to
the first entry whose ids fail to cast — entries before it are applied and
remain applied, but the failing entry and every later entry are not
applied, and the response is the single generic Server error with no
per-entry report; only a batch with no failing entry is applied in full
with a success response. -/
theorem marks_batch_per_entry_amended :
    (∀ (lect : String) (pre : List BatchEntry) (bad : BatchEntry)
      (rest : List BatchEntry) (store : List StoredMark) (step : Nat),
      (∀ e ∈ pre, entryCasts e = true) → entryCasts bad = false →
      marksBatch lect (pre ++ bad :: rest) store step =
        (applyEntries lect pre store step, Except.error "Server error")) ∧
    (∀ (lect : String) (entries : List BatchEntry)
      (store : List StoredMark) (step : Nat),
      (∀ e ∈ entries, entryCasts e = true) →
      (marksBatch lect entries store step).1 =
        applyEntries lect entries store step ∧
      ∃ rs, (marksBatch lect entries store step).2 = Except.ok rs) := by
  constructor
  · intro lect pre bad rest store step hpre hbad
    exact marksBatchLoop_stops lect bad rest hbad pre hpre store [] step
  · intro lect entries store step h
    exact marksBatchLoop_all_valid lect entries h store [] step

/-- Witness for C9 (amended): the stop-at-first-invalid conjunct evaluated
on a concrete two-entry batch whose second entry has a malformed id. -/
theorem marks_batch_per_entry_amended_witness :
    marksBatch "lect"
      [ ⟨"aaaaaaaaaaaaaaaaaaaaaaaa", "bbbbbbbbbbbbbbbbbbbbbbbb",
          "cccccccccccccccccccccccc", 40⟩
      , ⟨"nope", "bbbbbbbbbbbbbbbbbbbbbbbb",
          "cccccccccccccccccccccccc", 55⟩ ] [] 0 =
      (applyEntries "lect"
        [ ⟨"aaaaaaaaaaaaaaaaaaaaaaaa", "bbbbbbbbbbbbbbbbbbbbbbbb",
            "cccccccccccccccccccccccc", 40⟩ ] [] 0,
        Except.error "Server error") :=
  marks_batch_per_entry_amended.1 "lect"
    [ ⟨"aaaaaaaaaaaaaaaaaaaaaaaa", "bbbbbbbbbbbbbbbbbbbbbbbb",
        "cccccccccccccccccccccccc", 40⟩ ]
    ⟨"nope", "bbbbbbbbbbbbbbbbbbbbbbbb", "cccccccccccccccccccccccc", 55⟩
    [] [] 0 (by decide) (by decide)

end Gradely

